import Mathlib

/-!
# RoxTalk real-time core: a shallow embedding

This file embeds the real-time messaging core of the RoxTalk repository
(`server.ts`, `src/lib/presence.ts`, `src/lib/rooms.ts`, `src/models/Message.ts`)
in Lean 4 and proves properties of the embedded code.

Modelling conventions:
* A JavaScript `Map<string, V>` is modelled as an insertion-ordered association
  list `List (String × V)`.  `Map.set` updates the value in place when the key
  is present and appends otherwise; `Map.delete` removes the key's entry (on
  maps, whose keys are unique, this equals filtering the key out).
* JavaScript string comparison (`Array.prototype.sort`'s default comparator on
  two strings) is lexicographic comparison of the character sequences; it is
  modelled by an executable lexicographic order on `List Char`.  JavaScript's
  `String.prototype.trim`, used by the `message:send` handler, is modelled by
  an executable whitespace trim on `List Char`.
* `Date.now()`, and the `_id`/`createdAt` values assigned by MongoDB on
  `MessageModel.create`, are side inputs: they are passed explicitly as
  arguments.  A failed `create` (rejected promise) is modelled by the side
  input being `none`.
* Socket.IO primitives are modelled by their documented semantics:
  `io.emit` broadcasts to every connected socket, `io.to(room).emit`
  broadcasts to every socket in the room, `socket.to(room).emit` broadcasts
  to every socket in the room except the emitting one, and a disconnecting
  socket automatically leaves every room it had joined.
-/

namespace RoxTalk

/-- `Map.set` on an insertion-ordered association list: replace the value of
the first (unique) occurrence of the key, or append a fresh entry. -/
def alistSet {α : Type} : List (String × α) → String → α → List (String × α)
  | [], k, v => [(k, v)]
  | (k', v') :: rest, k, v =>
    if k' = k then (k, v) :: rest else (k', v') :: alistSet rest k v

/-- `Map.get` on an association list: the value at the first occurrence of the
key, if any. -/
def alistLookup {α : Type} : List (String × α) → String → Option α
  | [], _ => none
  | (k', v) :: rest, k => if k' = k then some v else alistLookup rest k

/-- `Map.delete` on an association list.  Since `Map` keys are unique, deleting
the key's entry is filtering the key out. -/
def alistDelete {α : Type} (m : List (String × α)) (k : String) :
    List (String × α) :=
  m.filter (fun kv => kv.1 ≠ k)

/-! ## `src/lib/presence.ts` -/

/-- `PresenceEntry` from `src/lib/presence.ts`: the socket id and the
`Date.now()` timestamp recorded when the user was marked online. -/
structure PresenceEntry where
  socketId : String
  lastSeenAt : Nat
  deriving DecidableEq, Repr

/-- The `onlineUsers` map of `src/lib/presence.ts`: user id to presence entry. -/
abbrev PresenceMap := List (String × PresenceEntry)

/-- `setUserOnline` from `src/lib/presence.ts`: store a fresh entry for the
user under `Map.set` semantics.  (The source also returns the new entry to its
caller; only the map update matters here.)  `now` is the `Date.now()` value. -/
def setUserOnline (m : PresenceMap) (userId socketId : String) (now : Nat) :
    PresenceMap :=
  alistSet m userId { socketId := socketId, lastSeenAt := now }

/-- `setUserOffline` from `src/lib/presence.ts`: `Map.delete` of the user. -/
def setUserOffline (m : PresenceMap) (userId : String) : PresenceMap :=
  alistDelete m userId

/-! ## JavaScript string primitives -/

/-- Lexicographic `≤` on character lists: the order JavaScript's default
`Array.prototype.sort` comparator induces on strings. -/
def listLe : List Char → List Char → Bool
  | [], _ => true
  | _ :: _, [] => false
  | a :: as, b :: bs => if a < b then true else if b < a then false else listLe as bs

/-- JavaScript string comparison `a <= b`. -/
def jsLe (a b : String) : Bool := listLe a.data b.data

/-- Drop whitespace from both ends of a character list. -/
def trimChars (l : List Char) : List Char :=
  ((l.dropWhile Char.isWhitespace).reverse.dropWhile Char.isWhitespace).reverse

/-- JavaScript `String.prototype.trim`. -/
def jsTrim (s : String) : String := ⟨trimChars s.data⟩

/-! ## `src/lib/rooms.ts` -/

/-- `[a, b].sort()` for two strings: the JavaScript default comparator orders
strings lexicographically, and sorting a two-element list yields the pair in
nondecreasing order. -/
def sortPair (a b : String) : String × String :=
  if jsLe a b then (a, b) else (b, a)

/-- `buildRoomId` from `src/lib/rooms.ts`: sort the two user ids and join them
as `room:<first>:<second>`. -/
def buildRoomId (userIdA userIdB : String) : String :=
  let sorted := sortPair userIdA userIdB
  "room:" ++ sorted.1 ++ ":" ++ sorted.2

/-! ## `server.ts`: wire payloads and their guards -/

/-- The wire payload of a `message:send` event.  The client controls the JSON
it sends, so each field checked by `isMessagePayload` is optional (absent or
non-string fields are `none`), and extra fields — such as an `attachments`
array — may ride along; the server's guard never looks at them. -/
structure MessageWire where
  fromUserId : Option String
  toUserId : Option String
  content : Option String
  attachments : List String
  deriving DecidableEq, Repr

/-- `isMessagePayload` from `server.ts`: `fromUserId`, `toUserId` and
`content` must all be strings. -/
def isMessagePayload (p : MessageWire) : Bool :=
  p.fromUserId.isSome && p.toUserId.isSome && p.content.isSome

/-- The wire payload of `typing:start` / `typing:stop`. -/
structure TypingWire where
  userId : Option String
  isTyping : Option Bool
  deriving DecidableEq, Repr

/-- `isTypingPayload` from `server.ts`: `userId` a string, `isTyping` a
boolean. -/
def isTypingPayload (p : TypingWire) : Bool :=
  p.userId.isSome && p.isTyping.isSome

/-- The wire payload of `room:join` / `room:leave`. -/
structure RoomWire where
  otherUserId : Option String
  deriving DecidableEq, Repr

/-- `isRoomPayload` from `server.ts`: `otherUserId` must be a string. -/
def isRoomPayload (p : RoomWire) : Bool :=
  p.otherUserId.isSome

/-! ## `src/models/Message.ts` and the Socket.IO transport -/

/-- A message document persisted by `MessageModel.create`: the fields passed
by the `message:send` handler plus the store-assigned `_id` and `createdAt`
(mongoose timestamps); `attachments` defaults to `[]` since the handler never
passes it. -/
structure StoredMessage where
  _id : String
  fromUserId : String
  toUserId : String
  content : String
  attachments : List String
  roomId : String
  createdAt : Nat
  deriving DecidableEq, Repr

/-- The `serializedMessage` object broadcast by the `message:send` handler:
exactly the six fields taken from the persisted document. -/
structure SerializedMessage where
  _id : String
  fromUserId : String
  toUserId : String
  content : String
  roomId : String
  createdAt : Nat
  deriving DecidableEq, Repr

/-- The payload of a server-to-client emit. -/
inductive EmitPayload where
  | user (userId : String)
  | typing (userId : String) (isTyping : Bool)
  | message (m : SerializedMessage)
  deriving DecidableEq, Repr

/-- A server-to-client emit: `io.emit` (to every connected socket),
`io.to(room).emit` (to every member of the room), or `socket.to(room).emit`
(to every member of the room except the emitting socket). -/
inductive Emit where
  | toAll (event : String) (payload : EmitPayload)
  | toRoom (roomId event : String) (payload : EmitPayload)
  | toRoomExceptSelf (roomId senderSocketId event : String) (payload : EmitPayload)
  deriving DecidableEq, Repr

/-- The Socket.IO room table: room id to the list of member socket ids. -/
abbrev Rooms := List (String × List String)

/-- `socket.join(roomId)`: add the socket to the room's member set;
idempotent. -/
def roomJoin (rooms : Rooms) (roomId socketId : String) : Rooms :=
  let members := (alistLookup rooms roomId).getD []
  if socketId ∈ members then rooms else alistSet rooms roomId (members ++ [socketId])

/-- `socket.leave(roomId)`: remove the socket from the room's member set. -/
def roomLeave (rooms : Rooms) (roomId socketId : String) : Rooms :=
  match alistLookup rooms roomId with
  | none => rooms
  | some members => alistSet rooms roomId (members.filter (· ≠ socketId))

/-- The member list of a room (empty when the room does not exist). -/
def roomMembers (rooms : Rooms) (roomId : String) : List String :=
  (alistLookup rooms roomId).getD []

/-- Socket.IO's automatic cleanup when a socket disconnects: the socket
leaves every room it had joined. -/
def roomsRemoveSocket (rooms : Rooms) (socketId : String) : Rooms :=
  rooms.map (fun kv => (kv.1, kv.2.filter (· ≠ socketId)))

/-- Whether a socket receives a given emit, judged against the room table in
force when the emit happens. -/
def receivesEmit (rooms : Rooms) (socketId : String) : Emit → Prop
  | .toAll _ _ => True
  | .toRoom roomId _ _ => socketId ∈ roomMembers rooms roomId
  | .toRoomExceptSelf roomId sender _ _ =>
      socketId ∈ roomMembers rooms roomId ∧ socketId ≠ sender

/-! ## `server.ts`: the per-connection event handlers -/

/-- The observable server state: the presence map, the Socket.IO room table,
the sequence of documents persisted by the Message Store, and the log of
emits in the order they were issued. -/
structure ServerState where
  presence : PresenceMap
  rooms : Rooms
  store : List StoredMessage
  emitted : List Emit
  deriving DecidableEq, Repr

/-- The initial server state: nothing online, no rooms, empty store. -/
def initialState : ServerState :=
  { presence := [], rooms := [], store := [], emitted := [] }

/-- The `message:send` handler from `server.ts`.  `userId` and `socketId` are
the identity and socket bound to the connection at handshake.  `assign` is
the Message Store's behaviour on this call: `some (id, now)` means
`MessageModel.create` succeeds and assigns `_id = id`, `createdAt = now`;
`none` means the create rejects (store failure), so the `await` throws before
the broadcast line runs. -/
def handleMessageSend (userId socketId : String) (st : ServerState)
    (p : MessageWire) (assign : Option (String × Nat)) : ServerState :=
  match p.fromUserId, p.toUserId, p.content with
  | some f, some t, some c =>
    if f ≠ userId ∨ jsTrim c = "" then st
    else
      let roomId := buildRoomId f t
      let rooms' := roomJoin st.rooms roomId socketId
      match assign with
      | none => { st with rooms := rooms' }
      | some (mid, now) =>
        let m : StoredMessage :=
          { _id := mid, fromUserId := f, toUserId := t, content := jsTrim c,
            attachments := [], roomId := roomId, createdAt := now }
        let serialized : SerializedMessage :=
          { _id := m._id, fromUserId := m.fromUserId, toUserId := m.toUserId,
            content := m.content, roomId := m.roomId, createdAt := m.createdAt }
        { st with rooms := rooms',
                  store := st.store ++ [m],
                  emitted := st.emitted ++ [.toRoom roomId "message:new" (.message serialized)] }
  | _, _, _ => st

/-- The `room:join` handler from `server.ts`. -/
def handleRoomJoin (userId socketId : String) (st : ServerState)
    (p : RoomWire) : ServerState :=
  match p.otherUserId with
  | some other => { st with rooms := roomJoin st.rooms (buildRoomId userId other) socketId }
  | none => st

/-- The `room:leave` handler from `server.ts`. -/
def handleRoomLeave (userId socketId : String) (st : ServerState)
    (p : RoomWire) : ServerState :=
  match p.otherUserId with
  | some other => { st with rooms := roomLeave st.rooms (buildRoomId userId other) socketId }
  | none => st

/-- The `typing:start` and `typing:stop` handlers from `server.ts`, which
differ only in the `isTyping` value they emit: `start = true` for
`typing:start`, `start = false` for `typing:stop`.  The payload's `userId`
selects the counterpart for the room derivation; the emitted `userId` is the
connection-bound one, and the payload's `isTyping` is never read. -/
def handleTyping (userId socketId : String) (st : ServerState)
    (p : TypingWire) (start : Bool) : ServerState :=
  match p.userId, p.isTyping with
  | some payloadUserId, some _payloadIsTyping =>
    let roomId := buildRoomId userId payloadUserId
    { st with emitted := st.emitted ++
        [.toRoomExceptSelf roomId socketId "user:typing" (.typing userId start)] }
  | _, _ => st

/-- The `presence:join` handler from `server.ts` (also run at connection
establishment): mark the user online and broadcast `user:online`. -/
def handlePresenceJoin (userId socketId : String) (now : Nat)
    (st : ServerState) : ServerState :=
  { st with presence := setUserOnline st.presence userId socketId now,
            emitted := st.emitted ++ [.toAll "user:online" (.user userId)] }

/-- The `presence:leave` handler from `server.ts`: mark the user offline and
broadcast `user:offline`. -/
def handlePresenceLeave (userId : String) (st : ServerState) : ServerState :=
  { st with presence := setUserOffline st.presence userId,
            emitted := st.emitted ++ [.toAll "user:offline" (.user userId)] }

/-- The `disconnect` handler from `server.ts`, together with the transport's
automatic room cleanup: mark the user offline, broadcast `user:offline`, and
(Socket.IO semantics) remove the socket from every room. -/
def handleDisconnect (userId socketId : String) (st : ServerState) : ServerState :=
  { st with presence := setUserOffline st.presence userId,
            rooms := roomsRemoveSocket st.rooms socketId,
            emitted := st.emitted ++ [.toAll "user:offline" (.user userId)] }

/-! ## Presence-affecting event traces

`server.ts` touches the presence map in exactly four places: the connection
handler and the `presence:join` handler call `setUserOnline(userId, socket.id)`,
and the `presence:leave` and `disconnect` handlers call `setUserOffline(userId)`
— always with the user id and socket id bound to that connection at handshake.
A trace of these calls, across all connections, drives the registry. -/

/-- One presence-affecting event, with the handshake-bound user id (and, for
the two online-marking events, the socket id and the `Date.now()` value). -/
inductive ConnEvent where
  | connect (userId socketId : String) (now : Nat)
  | announce (userId socketId : String) (now : Nat)
  | leave (userId : String)
  | disconnect (userId : String)
  deriving DecidableEq, Repr

/-- Apply one presence-affecting event to the registry, exactly as the
corresponding `server.ts` handler does. -/
def applyConn (m : PresenceMap) : ConnEvent → PresenceMap
  | .connect userId socketId now => setUserOnline m userId socketId now
  | .announce userId socketId now => setUserOnline m userId socketId now
  | .leave userId => setUserOffline m userId
  | .disconnect userId => setUserOffline m userId

/-- Run a chronological trace of presence-affecting events from the empty
registry the process starts with. -/
def runConn (trace : List ConnEvent) : PresenceMap :=
  trace.foldl applyConn []

/-- The socket id an event binds for a given user, if it is a
presence-announcing event for that user. -/
def setterOf : ConnEvent → String → Option String
  | .connect u s _, userId => if u = userId then some s else none
  | .announce u s _, userId => if u = userId then some s else none
  | .leave _, _ => none
  | .disconnect _, _ => none

/-- The first presence-announcing socket id for a user in a trace. -/
def firstSetter : List ConnEvent → String → Option String
  | [], _ => none
  | e :: rest, userId =>
    match setterOf e userId with
    | some s => some s
    | none => firstSetter rest userId

/-- The socket id of the most recent connection that announced presence for a
user in a chronological trace. -/
def lastSetter (trace : List ConnEvent) (userId : String) : Option String :=
  firstSetter trace.reverse userId

/-! ## Lemmas about the `Map` model -/

theorem alistLookup_alistSet_self {α : Type} (m : List (String × α)) (k : String) (v : α) :
    alistLookup (alistSet m k v) k = some v := by
  induction m with
  | nil => simp [alistSet, alistLookup]
  | cons kv rest ih =>
    obtain ⟨k', v'⟩ := kv
    by_cases h : k' = k <;> simp [alistSet, alistLookup, h, ih]

theorem alistLookup_alistSet_ne {α : Type} (m : List (String × α)) (k u : String) (v : α)
    (h : u ≠ k) : alistLookup (alistSet m k v) u = alistLookup m u := by
  have hku : ¬(k = u) := fun hh => h hh.symm
  induction m with
  | nil => simp [alistSet, alistLookup, hku]
  | cons kv rest ih =>
    obtain ⟨k', v'⟩ := kv
    by_cases hk : k' = k
    · subst hk
      simp [alistSet, alistLookup, hku]
    · by_cases hu : k' = u
      · subst hu
        simp [alistSet, alistLookup, hk]
      · simp [alistSet, alistLookup, hk, hu, ih]

theorem alistLookup_alistDelete_self {α : Type} (m : List (String × α)) (k : String) :
    alistLookup (alistDelete m k) k = none := by
  unfold alistDelete
  induction m with
  | nil => rfl
  | cons kv rest ih =>
    obtain ⟨k', v'⟩ := kv
    by_cases h : k' = k
    · simpa [List.filter_cons, h] using ih
    · simpa [List.filter_cons, h, alistLookup] using ih

theorem alistLookup_alistDelete_ne {α : Type} (m : List (String × α)) (k u : String)
    (h : u ≠ k) : alistLookup (alistDelete m k) u = alistLookup m u := by
  unfold alistDelete
  induction m with
  | nil => rfl
  | cons kv rest ih =>
    obtain ⟨k', v'⟩ := kv
    by_cases hk : k' = k
    · subst hk
      have hku : ¬(k' = u) := fun hh => h hh.symm
      simpa [List.filter_cons, alistLookup, hku] using ih
    · by_cases hu : k' = u
      · subst hu
        simp [List.filter_cons, alistLookup, hk]
      · simpa [List.filter_cons, alistLookup, hk, hu] using ih

/-- The keys of an association list. -/
def alistKeys {α : Type} (m : List (String × α)) : List String := m.map Prod.fst

theorem alistKeys_alistSet {α : Type} (m : List (String × α)) (k : String) (v : α) :
    alistKeys (alistSet m k v) =
      if k ∈ alistKeys m then alistKeys m else alistKeys m ++ [k] := by
  induction m with
  | nil => simp [alistSet, alistKeys]
  | cons kv rest ih =>
    obtain ⟨k', v'⟩ := kv
    by_cases h : k' = k
    · subst h
      simp [alistSet, alistKeys]
    · have hk : ¬(k = k') := fun hh => h hh.symm
      simp only [alistSet, if_neg h, alistKeys, List.map_cons] at ih ⊢
      rw [ih]
      by_cases hm : k ∈ List.map Prod.fst rest
      · rw [if_pos hm, if_pos (List.mem_cons_of_mem _ hm)]
      · rw [if_neg hm, if_neg (by simp [List.mem_cons, hm, hk]), List.cons_append]

theorem alistKeys_nodup_alistSet {α : Type} (m : List (String × α)) (k : String) (v : α)
    (h : (alistKeys m).Nodup) : (alistKeys (alistSet m k v)).Nodup := by
  rw [alistKeys_alistSet]
  by_cases hm : k ∈ alistKeys m
  · simpa [hm] using h
  · simp only [hm, if_false]
    simp [List.nodup_append, h, hm]

theorem alistKeys_nodup_alistDelete {α : Type} (m : List (String × α)) (k : String)
    (h : (alistKeys m).Nodup) : (alistKeys (alistDelete m k)).Nodup := by
  have hsub : (alistKeys (alistDelete m k)).Sublist (alistKeys m) :=
    List.Sublist.map Prod.fst (List.filter_sublist m)
  exact hsub.nodup h

/-! ## Lemmas about the JavaScript string comparator -/

theorem listLe_total : ∀ as bs : List Char, listLe as bs = true ∨ listLe bs as = true
  | [], _ => Or.inl rfl
  | _ :: _, [] => Or.inr rfl
  | a :: as, b :: bs => by
    by_cases hab : a < b
    · left
      simp [listLe, hab]
    · by_cases hba : b < a
      · right
        simp [listLe, hba]
      · have h := listLe_total as bs
        rcases h with h | h
        · left
          simp [listLe, hab, hba, h]
        · right
          simp [listLe, hab, hba, h]

theorem listLe_antisymm : ∀ as bs : List Char,
    listLe as bs = true → listLe bs as = true → as = bs
  | [], [], _, _ => rfl
  | [], _ :: _, _, h2 => by simp [listLe] at h2
  | _ :: _, [], h1, _ => by simp [listLe] at h1
  | a :: as, b :: bs, h1, h2 => by
    by_cases hab : a < b
    · have hba : ¬b < a := lt_asymm hab
      simp [listLe, hab, hba] at h2
    · by_cases hba : b < a
      · simp [listLe, hab, hba] at h1
      · have heq : a = b := le_antisymm (not_lt.mp hba) (not_lt.mp hab)
        subst heq
        simp [listLe] at h1 h2
        rw [listLe_antisymm as bs h1 h2]

/-- Two strings with the same character data are equal. -/
theorem string_data_inj {a b : String} (h : a.data = b.data) : a = b := by
  cases a
  cases b
  exact congrArg String.mk h

theorem jsLe_antisymm (a b : String) (h1 : jsLe a b = true) (h2 : jsLe b a = true) :
    a = b :=
  string_data_inj (listLe_antisymm a.data b.data h1 h2)

theorem jsLe_total (a b : String) : jsLe a b = true ∨ jsLe b a = true :=
  listLe_total a.data b.data

/-! ## Lemmas about `buildRoomId` -/

/-- The character data of a room id: the `room:` prefix, the smaller id, the
`:` separator, and the larger id. -/
theorem buildRoomId_data (a b : String) :
    (buildRoomId a b).data =
      'r' :: 'o' :: 'o' :: 'm' :: ':' ::
        ((sortPair a b).1.data ++ ':' :: (sortPair a b).2.data) := by
  unfold buildRoomId
  simp [String.data_append]

/-- Splitting at a separator character that occurs in neither left part is
unambiguous. -/
theorem sep_split (l1 : List Char) : ∀ l2 r1 r2 : List Char, ':' ∉ l1 → ':' ∉ l2 →
    l1 ++ ':' :: r1 = l2 ++ ':' :: r2 → l1 = l2 ∧ r1 = r2 := by
  induction l1 with
  | nil =>
    intro l2 r1 r2 _ h2 h
    cases l2 with
    | nil => simpa using h
    | cons c l2 =>
      simp at h
      obtain ⟨hc, _⟩ := h
      subst hc
      simp at h2
  | cons a l1 ih =>
    intro l2 r1 r2 h1 h2 h
    cases l2 with
    | nil =>
      simp at h
      obtain ⟨ha, _⟩ := h
      subst ha
      simp at h1
    | cons b l2 =>
      simp at h
      obtain ⟨hab, hrest⟩ := h
      subst hab
      have h1' : ':' ∉ l1 := fun hm => h1 (List.mem_cons_of_mem _ hm)
      have h2' : ':' ∉ l2 := fun hm => h2 (List.mem_cons_of_mem _ hm)
      obtain ⟨he, hr⟩ := ih l2 r1 r2 h1' h2' hrest
      exact ⟨by rw [he], hr⟩

/-! ## Lemmas about the room table -/

theorem mem_roomJoin_self (rooms : Rooms) (roomId socketId : String) :
    socketId ∈ roomMembers (roomJoin rooms roomId socketId) roomId := by
  unfold roomJoin roomMembers
  by_cases h : socketId ∈ (alistLookup rooms roomId).getD []
  · simp [h]
  · simp [h, alistLookup_alistSet_self]

theorem alistLookup_roomsRemoveSocket (rooms : Rooms) (socketId roomId : String) :
    alistLookup (roomsRemoveSocket rooms socketId) roomId =
      (alistLookup rooms roomId).map (fun members => members.filter (· ≠ socketId)) := by
  induction rooms with
  | nil => simp [roomsRemoveSocket, alistLookup]
  | cons kv rest ih =>
    obtain ⟨k', members⟩ := kv
    by_cases h : k' = roomId
    · simp [roomsRemoveSocket, alistLookup, h]
    · simp [roomsRemoveSocket, alistLookup, h] at ih ⊢
      exact ih

theorem not_mem_roomsRemoveSocket (rooms : Rooms) (socketId roomId : String) :
    socketId ∉ roomMembers (roomsRemoveSocket rooms socketId) roomId := by
  unfold roomMembers
  rw [alistLookup_roomsRemoveSocket]
  cases alistLookup rooms roomId with
  | none => simp
  | some members => simp

/-! ## Lemmas about presence traces -/

theorem runConn_append (trace : List ConnEvent) (e : ConnEvent) :
    runConn (trace ++ [e]) = applyConn (runConn trace) e := by
  simp [runConn, List.foldl_append]

theorem lastSetter_append (trace : List ConnEvent) (e : ConnEvent) (u : String) :
    lastSetter (trace ++ [e]) u =
      match setterOf e u with
      | some s => some s
      | none => lastSetter trace u := by
  simp [lastSetter, List.reverse_append, firstSetter]

theorem runConn_keys_nodup (trace : List ConnEvent) :
    (alistKeys (runConn trace)).Nodup := by
  suffices h : ∀ m : PresenceMap, (alistKeys m).Nodup →
      (alistKeys (trace.foldl applyConn m)).Nodup by
    exact h [] (by simp [alistKeys])
  induction trace with
  | nil =>
    intro m hm
    simpa using hm
  | cons e rest ih =>
    intro m hm
    rw [List.foldl_cons]
    cases e with
    | connect u s n => exact ih _ (alistKeys_nodup_alistSet m u _ hm)
    | announce u s n => exact ih _ (alistKeys_nodup_alistSet m u _ hm)
    | leave u => exact ih _ (alistKeys_nodup_alistDelete m u hm)
    | disconnect u => exact ih _ (alistKeys_nodup_alistDelete m u hm)

theorem runConn_lookup_lastSetter (trace : List ConnEvent) (u : String) (e : PresenceEntry)
    (h : alistLookup (runConn trace) u = some e) :
    lastSetter trace u = some e.socketId := by
  induction trace using List.reverseRecOn with
  | nil => simp [runConn, alistLookup] at h
  | append_singleton rest ev ih =>
    rw [runConn_append] at h
    rw [lastSetter_append]
    cases ev with
    | connect u' s n =>
      by_cases hu : u' = u
      · subst hu
        rw [show applyConn (runConn rest) (ConnEvent.connect u' s n)
              = alistSet (runConn rest) u' ⟨s, n⟩ from rfl,
            alistLookup_alistSet_self] at h
        cases h
        simp [setterOf]
      · rw [show applyConn (runConn rest) (ConnEvent.connect u' s n)
              = alistSet (runConn rest) u' ⟨s, n⟩ from rfl,
            alistLookup_alistSet_ne _ _ _ _ (fun hh => hu hh.symm)] at h
        simp only [setterOf, if_neg hu]
        exact ih h
    | announce u' s n =>
      by_cases hu : u' = u
      · subst hu
        rw [show applyConn (runConn rest) (ConnEvent.announce u' s n)
              = alistSet (runConn rest) u' ⟨s, n⟩ from rfl,
            alistLookup_alistSet_self] at h
        cases h
        simp [setterOf]
      · rw [show applyConn (runConn rest) (ConnEvent.announce u' s n)
              = alistSet (runConn rest) u' ⟨s, n⟩ from rfl,
            alistLookup_alistSet_ne _ _ _ _ (fun hh => hu hh.symm)] at h
        simp only [setterOf, if_neg hu]
        exact ih h
    | leave u' =>
      by_cases hu : u' = u
      · subst hu
        rw [show applyConn (runConn rest) (ConnEvent.leave u')
              = alistDelete (runConn rest) u' from rfl,
            alistLookup_alistDelete_self] at h
        cases h
      · rw [show applyConn (runConn rest) (ConnEvent.leave u')
              = alistDelete (runConn rest) u' from rfl,
            alistLookup_alistDelete_ne _ _ _ (fun hh => hu hh.symm)] at h
        simp only [setterOf]
        exact ih h
    | disconnect u' =>
      by_cases hu : u' = u
      · subst hu
        rw [show applyConn (runConn rest) (ConnEvent.disconnect u')
              = alistDelete (runConn rest) u' from rfl,
            alistLookup_alistDelete_self] at h
        cases h
      · rw [show applyConn (runConn rest) (ConnEvent.disconnect u')
              = alistDelete (runConn rest) u' from rfl,
            alistLookup_alistDelete_ne _ _ _ (fun hh => hu hh.symm)] at h
        simp only [setterOf]
        exact ih h

/-! ## Branch lemmas for the `message:send` handler -/

theorem handleMessageSend_drop (userId socketId : String) (st : ServerState)
    (f t c : String) (atts : List String) (assign : Option (String × Nat))
    (hv : f ≠ userId ∨ jsTrim c = "") :
    handleMessageSend userId socketId st ⟨some f, some t, some c, atts⟩ assign = st := by
  simp only [handleMessageSend]
  exact if_pos hv

theorem handleMessageSend_create_fail (userId socketId : String) (st : ServerState)
    (f t c : String) (atts : List String)
    (hf : f = userId) (hc : jsTrim c ≠ "") :
    handleMessageSend userId socketId st ⟨some f, some t, some c, atts⟩ none =
      { st with rooms := roomJoin st.rooms (buildRoomId f t) socketId } := by
  have hv : ¬(f ≠ userId ∨ jsTrim c = "") := by simp [hf, hc]
  simp only [handleMessageSend]
  rw [if_neg hv]

theorem handleMessageSend_accept (userId socketId : String) (st : ServerState)
    (f t c : String) (atts : List String) (mid : String) (now : Nat)
    (hf : f = userId) (hc : jsTrim c ≠ "") :
    handleMessageSend userId socketId st ⟨some f, some t, some c, atts⟩ (some (mid, now)) =
      { st with
        rooms := roomJoin st.rooms (buildRoomId f t) socketId,
        store := st.store ++ [{ _id := mid, fromUserId := f, toUserId := t,
                                content := jsTrim c, attachments := [],
                                roomId := buildRoomId f t, createdAt := now }],
        emitted := st.emitted ++ [.toRoom (buildRoomId f t) "message:new" (.message
          { _id := mid, fromUserId := f, toUserId := t, content := jsTrim c,
            roomId := buildRoomId f t, createdAt := now })] } := by
  have hv : ¬(f ≠ userId ∨ jsTrim c = "") := by simp [hf, hc]
  simp only [handleMessageSend]
  rw [if_neg hv]

/-! ## The claims -/

/-- C1: For every `message:send` event, any `message:new` broadcast comes with
the message having been persisted via `MessageModel.create`: when the create
fails nothing is broadcast (and nothing stored), and when a broadcast happens
the persisted record's `fromUserId`, `toUserId`, `content`, `roomId` and
`createdAt` (plus `_id`) are exactly the fields of the broadcast payload. -/
theorem message_send_persist_before_broadcast (userId socketId : String)
    (st : ServerState) (p : MessageWire) (assign : Option (String × Nat)) :
    (assign = none →
      (handleMessageSend userId socketId st p assign).emitted = st.emitted ∧
      (handleMessageSend userId socketId st p assign).store = st.store) ∧
    ((handleMessageSend userId socketId st p assign).emitted ≠ st.emitted →
      ∃ m : StoredMessage,
        (handleMessageSend userId socketId st p assign).store = st.store ++ [m] ∧
        (handleMessageSend userId socketId st p assign).emitted =
          st.emitted ++ [Emit.toRoom m.roomId "message:new" (.message
            ⟨m._id, m.fromUserId, m.toUserId, m.content, m.roomId, m.createdAt⟩)]) := by
  obtain ⟨f?, t?, c?, atts⟩ := p
  cases f? with
  | none => exact ⟨fun _ => ⟨rfl, rfl⟩, fun h => absurd rfl h⟩
  | some f =>
  cases t? with
  | none => exact ⟨fun _ => ⟨rfl, rfl⟩, fun h => absurd rfl h⟩
  | some t =>
  cases c? with
  | none => exact ⟨fun _ => ⟨rfl, rfl⟩, fun h => absurd rfl h⟩
  | some c =>
  by_cases hv : f ≠ userId ∨ jsTrim c = ""
  · rw [handleMessageSend_drop userId socketId st f t c atts assign hv]
    exact ⟨fun _ => ⟨rfl, rfl⟩, fun h => absurd rfl h⟩
  · push_neg at hv
    obtain ⟨hf, hc⟩ := hv
    cases assign with
    | none =>
      rw [handleMessageSend_create_fail userId socketId st f t c atts hf hc]
      exact ⟨fun _ => ⟨rfl, rfl⟩, fun h => absurd rfl h⟩
    | some a =>
      obtain ⟨mid, now⟩ := a
      rw [handleMessageSend_accept userId socketId st f t c atts mid now hf hc]
      exact ⟨fun h => Option.noConfusion h, fun _ => ⟨_, rfl, rfl⟩⟩

/-- C1 witness: a concrete accepted send persists one message and broadcasts
exactly its fields. -/
theorem message_send_persist_before_broadcast_witness :
    ∃ m : StoredMessage,
      (handleMessageSend "u1" "s1" initialState
        ⟨some "u1", some "u2", some "hi", []⟩ (some ("m1", 7))).store =
        initialState.store ++ [m] ∧
      (handleMessageSend "u1" "s1" initialState
        ⟨some "u1", some "u2", some "hi", []⟩ (some ("m1", 7))).emitted =
        initialState.emitted ++ [Emit.toRoom m.roomId "message:new" (.message
          ⟨m._id, m.fromUserId, m.toUserId, m.content, m.roomId, m.createdAt⟩)] :=
  (message_send_persist_before_broadcast "u1" "s1" initialState
    ⟨some "u1", some "u2", some "hi", []⟩ (some ("m1", 7))).2 (by decide)

/-- C2: a `message:send` whose payload `fromUserId` differs from the user id
bound to the connection at handshake leaves the server state unchanged:
nothing is persisted and nothing is broadcast. -/
theorem message_send_spoof_dropped (userId socketId : String) (st : ServerState)
    (p : MessageWire) (assign : Option (String × Nat)) (f : String)
    (hf : p.fromUserId = some f) (hne : f ≠ userId) :
    handleMessageSend userId socketId st p assign = st := by
  obtain ⟨f?, t?, c?, atts⟩ := p
  cases f? with
  | none => simp at hf
  | some f' =>
  have hf' : f' = f := by simpa using hf
  subst hf'
  cases t? with
  | none =>
    cases c? with
    | none => rfl
    | some c => rfl
  | some t =>
  cases c? with
  | none => rfl
  | some c => exact handleMessageSend_drop userId socketId st f' t c atts assign (Or.inl hne)

/-- C2 witness: a concrete spoofed send is dropped. -/
theorem message_send_spoof_dropped_witness :
    handleMessageSend "u1" "s1" initialState
      ⟨some "u2", some "u3", some "hi", []⟩ (some ("m1", 1)) = initialState :=
  message_send_spoof_dropped "u1" "s1" initialState
    ⟨some "u2", some "u3", some "hi", []⟩ (some ("m1", 1)) "u2" rfl (by decide)

/-- C3: for every trace of connect / re-announce / leave / disconnect events,
the presence registry holds at most one entry per user id, and whenever an
entry exists its socket id is the one bound by the most recent connection
that announced presence for that user. -/
theorem presence_registry_single_entry_last_writer (trace : List ConnEvent) (u : String) :
    (alistKeys (runConn trace)).count u ≤ 1 ∧
    ∀ e : PresenceEntry, alistLookup (runConn trace) u = some e →
      lastSetter trace u = some e.socketId := by
  constructor
  · exact List.nodup_iff_count_le_one.mp (runConn_keys_nodup trace) u
  · intro e h
    exact runConn_lookup_lastSetter trace u e h

/-- C3 witness: after two connections for the same user, the entry is bound to
the most recent one. -/
theorem presence_registry_single_entry_last_writer_witness :
    lastSetter [ConnEvent.connect "alice" "s1" 0, ConnEvent.connect "alice" "s2" 1]
      "alice" = some "s2" :=
  (presence_registry_single_entry_last_writer
    [ConnEvent.connect "alice" "s1" 0, ConnEvent.connect "alice" "s2" 1] "alice").2
    ⟨"s2", 1⟩ (by decide)

/-- C4 counterexample: `buildRoomId` is not injective over unordered pairs of
arbitrary user ids, because user ids may themselves contain the `:` separator:
the distinct unordered pairs `{"a:b:a", "b:a"}` and `{"a:b:a", "a:b"}` share
the first element yet collide on `room:a:b:a:b:a`. -/
theorem buildRoomId_collision_ce :
    buildRoomId "a:b:a" "b:a" = buildRoomId "a:b:a" "a:b" ∧
    ("b:a" : String) ≠ "a:b" := by
  decide

/-- C4 amended: `buildRoomId` is injective over unordered pairs of user ids
that do not contain the separator character `:` (as MongoDB ObjectId strings,
the actual user ids, do not). -/
theorem buildRoomId_unordered_pair_inj_of_no_colon (a b c d : String)
    (ha : ':' ∉ a.data) (hb : ':' ∉ b.data) (hc : ':' ∉ c.data) (hd : ':' ∉ d.data)
    (h : buildRoomId a b = buildRoomId c d) :
    (a = c ∧ b = d) ∨ (a = d ∧ b = c) := by
  have hdata : (sortPair a b).1.data ++ ':' :: (sortPair a b).2.data
      = (sortPair c d).1.data ++ ':' :: (sortPair c d).2.data := by
    have h' := congrArg String.data h
    rw [buildRoomId_data, buildRoomId_data] at h'
    simpa using h'
  have hab1 : ':' ∉ (sortPair a b).1.data := by unfold sortPair; split <;> assumption
  have hcd1 : ':' ∉ (sortPair c d).1.data := by unfold sortPair; split <;> assumption
  obtain ⟨hfst, hsnd⟩ := sep_split _ _ _ _ hab1 hcd1 hdata
  have hfst' : (sortPair a b).1 = (sortPair c d).1 := string_data_inj hfst
  have hsnd' : (sortPair a b).2 = (sortPair c d).2 := string_data_inj hsnd
  unfold sortPair at hfst' hsnd'
  by_cases h1 : jsLe a b = true <;> by_cases h2 : jsLe c d = true <;>
    simp [h1, h2] at hfst' hsnd' <;> tauto

/-- C4 amended witness: colon-free ids whose room ids agree form the same
unordered pair. -/
theorem buildRoomId_unordered_pair_inj_of_no_colon_witness :
    ("alice" = "bob" ∧ "bob" = "alice") ∨ ("alice" = "alice" ∧ "bob" = "bob") :=
  buildRoomId_unordered_pair_inj_of_no_colon "alice" "bob" "bob" "alice"
    (by decide) (by decide) (by decide) (by decide) (by decide)

/-- C5 counterexample: `buildRoomId` does not fail on an empty user id; with
an empty first id it returns the ordinary string `room::a`. -/
theorem buildRoomId_empty_id_ce : buildRoomId "" "a" = "room::a" := by
  decide

/-- C5 amended: `buildRoomId` performs no emptiness validation and never
fails: for every input, including an empty id on either side, it returns the
room id string; an empty id yields an id with an empty segment. -/
theorem buildRoomId_accepts_empty (a : String) :
    buildRoomId "" a = "room::" ++ a ∧ buildRoomId a "" = "room::" ++ a := by
  have h1 : ("room:" ++ "" : String) = "room:" := by decide
  have h2 : ("room:" ++ ":" : String) = "room::" := by decide
  constructor
  · unfold buildRoomId sortPair
    rw [show jsLe "" a = true from rfl]
    simp only [if_true]
    rw [h1, h2]
  · rcases a with ⟨l⟩
    cases l with
    | nil => decide
    | cons ch cs =>
      unfold buildRoomId sortPair
      rw [show jsLe ⟨ch :: cs⟩ "" = false from rfl]
      simp only [Bool.false_eq_true, if_false]
      rw [h1, h2]

/-- C6 counterexample: a `message:send` with blank content and a non-empty
attachments array is dropped — nothing is persisted and nothing is broadcast —
contradicting the claim that such a message is accepted. -/
theorem message_send_attachments_only_dropped_ce :
    handleMessageSend "u1" "s1" initialState
      ⟨some "u1", some "u2", some "   ", ["photo.png"]⟩ (some ("m1", 5)) =
      initialState := by
  decide

/-- C6 amended: beyond the sender-identity check, a well-formed `message:send`
is accepted (persisted and broadcast) if and only if its content is non-blank
after trimming; attachments play no role in the socket path (its payload
guard never reads them), so a blank-content message is dropped even when
attachments are present. -/
theorem message_send_accept_iff_nonblank_content (userId socketId : String)
    (st : ServerState) (f t c : String) (atts : List String) (mid : String) (now : Nat) :
    ((f = userId ∧ jsTrim c ≠ "") →
      ∃ m : StoredMessage,
        (handleMessageSend userId socketId st
          ⟨some f, some t, some c, atts⟩ (some (mid, now))).store = st.store ++ [m] ∧
        (handleMessageSend userId socketId st
          ⟨some f, some t, some c, atts⟩ (some (mid, now))).emitted =
          st.emitted ++ [Emit.toRoom m.roomId "message:new" (.message
            ⟨m._id, m.fromUserId, m.toUserId, m.content, m.roomId, m.createdAt⟩)]) ∧
    (¬(f = userId ∧ jsTrim c ≠ "") →
      handleMessageSend userId socketId st
        ⟨some f, some t, some c, atts⟩ (some (mid, now)) = st) := by
  constructor
  · rintro ⟨hf, hc⟩
    rw [handleMessageSend_accept userId socketId st f t c atts mid now hf hc]
    exact ⟨_, rfl, rfl⟩
  · intro hn
    have hv : f ≠ userId ∨ jsTrim c = "" := by tauto
    exact handleMessageSend_drop userId socketId st f t c atts _ hv

/-- C6 amended witness: a non-blank message with attachments riding along is
accepted; the attachments change nothing. -/
theorem message_send_accept_iff_nonblank_content_witness :
    ∃ m : StoredMessage,
      (handleMessageSend "u1" "s1" initialState
        ⟨some "u1", some "u2", some " hi ", ["photo.png"]⟩ (some ("m1", 5))).store =
        initialState.store ++ [m] ∧
      (handleMessageSend "u1" "s1" initialState
        ⟨some "u1", some "u2", some " hi ", ["photo.png"]⟩ (some ("m1", 5))).emitted =
        initialState.emitted ++ [Emit.toRoom m.roomId "message:new" (.message
          ⟨m._id, m.fromUserId, m.toUserId, m.content, m.roomId, m.createdAt⟩)] :=
  (message_send_accept_iff_nonblank_content "u1" "s1" initialState
    "u1" "u2" " hi " ["photo.png"] "m1" 5).1 (by decide)

/-- C7: a transport-level disconnect, even without a prior `presence:leave`,
removes the user's presence entry, broadcasts `user:offline` with that user
id, and removes the socket from every room's member set. -/
theorem disconnect_cleanup (userId socketId : String) (st : ServerState) :
    alistLookup (handleDisconnect userId socketId st).presence userId = none ∧
    (handleDisconnect userId socketId st).emitted =
      st.emitted ++ [Emit.toAll "user:offline" (.user userId)] ∧
    ∀ roomId : String,
      socketId ∉ roomMembers (handleDisconnect userId socketId st).rooms roomId := by
  refine ⟨?_, rfl, ?_⟩
  · exact alistLookup_alistDelete_self st.presence userId
  · intro roomId
    exact not_mem_roomsRemoveSocket st.rooms socketId roomId

/-- C8: for an accepted `message:send`, the sender's socket is a member of the
message's room at broadcast time — the handler joins the sender's socket to
the room before broadcasting — so after a `room:join` immediately followed by
`message:send`, the sending connection receives its own `message:new`. -/
theorem join_send_sender_receives_own_broadcast (userId socketId : String)
    (st : ServerState) (other c mid : String) (now : Nat) (hc : jsTrim c ≠ "") :
    socketId ∈ roomMembers
      (handleMessageSend userId socketId (handleRoomJoin userId socketId st ⟨some other⟩)
        ⟨some userId, some other, some c, []⟩ (some (mid, now))).rooms
      (buildRoomId userId other) ∧
    ∃ m : SerializedMessage,
      (handleMessageSend userId socketId (handleRoomJoin userId socketId st ⟨some other⟩)
        ⟨some userId, some other, some c, []⟩ (some (mid, now))).emitted =
        (handleRoomJoin userId socketId st ⟨some other⟩).emitted ++
          [Emit.toRoom (buildRoomId userId other) "message:new" (.message m)] ∧
      receivesEmit
        (handleMessageSend userId socketId (handleRoomJoin userId socketId st ⟨some other⟩)
          ⟨some userId, some other, some c, []⟩ (some (mid, now))).rooms
        socketId
        (Emit.toRoom (buildRoomId userId other) "message:new" (.message m)) := by
  rw [handleMessageSend_accept userId socketId _ userId other c [] mid now rfl hc]
  refine ⟨mem_roomJoin_self _ _ _, ⟨_, rfl, ?_⟩⟩
  exact mem_roomJoin_self _ _ _

/-- C8 witness: after a concrete join-then-send, the sender's socket is in the
room at broadcast time. -/
theorem join_send_sender_receives_own_broadcast_witness :
    "s1" ∈ roomMembers
      (handleMessageSend "u1" "s1" (handleRoomJoin "u1" "s1" initialState ⟨some "u2"⟩)
        ⟨some "u1", some "u2", some "hi", []⟩ (some ("m1", 3))).rooms
      (buildRoomId "u1" "u2") :=
  (join_send_sender_receives_own_broadcast "u1" "s1" initialState "u2" "hi" "m1" 3
    (by decide)).1

/-- C9: the room id derivation is commutative — swapping the two user ids
yields the same room id (it is a pure function of the unordered pair). -/
theorem buildRoomId_comm (a b : String) : buildRoomId a b = buildRoomId b a := by
  unfold buildRoomId sortPair
  by_cases h1 : jsLe a b = true
  · by_cases h2 : jsLe b a = true
    · have heq : a = b := jsLe_antisymm a b h1 h2
      subst heq
      rfl
    · simp [h1, h2]
  · have h2 : jsLe b a = true := (jsLe_total a b).resolve_left h1
    simp [h1, h2]

/-- C10: for a well-formed typing payload, the emitted `user:typing` event
carries the connection-bound user id — not the payload's — and its `isTyping`
value is fixed by which handler ran (`typing:start` versus `typing:stop`),
not by the payload's `isTyping` field; the payload's `userId` only selects
the room. -/
theorem typing_attributes_connection_user (userId socketId : String)
    (st : ServerState) (payloadUserId : String)
    (payloadIsTyping payloadIsTyping' : Bool) (start : Bool) :
    handleTyping userId socketId st ⟨some payloadUserId, some payloadIsTyping⟩ start =
      handleTyping userId socketId st ⟨some payloadUserId, some payloadIsTyping'⟩ start ∧
    (handleTyping userId socketId st ⟨some payloadUserId, some payloadIsTyping⟩ start).emitted =
      st.emitted ++ [Emit.toRoomExceptSelf (buildRoomId userId payloadUserId) socketId
        "user:typing" (.typing userId start)] :=
  ⟨rfl, rfl⟩

end RoxTalk
